import Mathlib

/-!
Verification development for the SkillHub MCP server (src/unnamed/part_000,
a single JavaScript file). The definitions below are a shallow embedding of
the agent-detection logic, the install-path security check, the two-phase
install workflow and the tool-call dispatcher. External effects (filesystem,
network, clock) are made explicit as parameters and effect logs.
-/

namespace Skillhub

/-! ## Path model

Model of the Node.js posix path functions used by the source
(`path.join`, `path.resolve`) on absolute base paths, plus the JS
`String.prototype.startsWith` used by the security check.
Paths are strings; segments are split on the slash character; `normSegs`
drops empty and dot segments and resolves dot-dot segments against a stack,
exactly as Node path normalization does for absolute paths.
-/

/-- JS `s.startsWith(pre)`: plain code-unit prefix test. -/
def jsStartsWith (s pre : String) : Bool :=
  List.isPrefixOf pre.data s.data

/-- Split a character list on the slash character. -/
def splitSegsAux : List Char → List Char → List (List Char)
  | [], acc => [acc.reverse]
  | c :: rest, acc =>
      if c = '/' then acc.reverse :: splitSegsAux rest []
      else splitSegsAux rest (c :: acc)

/-- Raw slash-separated segments of a path string. -/
def segsOf (p : String) : List (List Char) :=
  splitSegsAux p.data []

/-- Normalize segments with a stack: drop empty and `.` segments, a `..`
segment pops the stack (above the root it is dropped, as Node does for
absolute paths). -/
def normStack : List (List Char) → List (List Char) → List (List Char)
  | [], stack => stack.reverse
  | s :: rest, stack =>
      if s = ([] : List Char) then normStack rest stack
      else if s = ['.'] then normStack rest stack
      else if s = ['.', '.'] then normStack rest stack.tail
      else normStack rest (s :: stack)

/-- Normalized segments of an absolute path. -/
def normSegs (p : String) : List (List Char) :=
  normStack (segsOf p) []

/-- Render normalized segments back to an absolute path string. -/
def renderAbs (segs : List (List Char)) : String :=
  segs.foldl (fun acc s => acc ++ "/" ++ String.mk s) ""

/-- Model of Node `path.resolve` on an absolute input: pure normalization
(the source only ever resolves paths built from the absolute home
directory, so the working directory never enters). -/
def pathResolve (p : String) : String :=
  renderAbs (normSegs p)

/-- Model of Node `path.join a b`: concatenate with a slash and normalize. -/
def pathJoin (a b : String) : String :=
  renderAbs (normSegs (a ++ "/" ++ b))

/-- Ground-truth containment: the normalized segments of `root` are a
prefix of the normalized segments of `dir` (component-wise, so a sibling
directory sharing a name prefix is NOT a descendant). -/
def isDescendant (root dir : String) : Bool :=
  List.isPrefixOf (normSegs root) (normSegs dir)

/-! ## Agents and install roots -/

/-- The closed set of agent kinds, as produced by schema validation of the
`agents` option (`z.enum(["claude", "codex", "gemini", "opencode"])`). -/
inductive Agent where
  | claude
  | codex
  | gemini
  | opencode
deriving DecidableEq

def agentToString : Agent → String
  | .claude => "claude"
  | .codex => "codex"
  | .gemini => "gemini"
  | .opencode => "opencode"

/-- The four agent-name strings accepted by the detector override check. -/
def agentNames : List String := ["claude", "codex", "gemini", "opencode"]

/-- Source `ALLOWED_INSTALL_DIRS`: a fixed object keyed by agent-name
string, one install root per agent under the home directory. Modeled as an
association list because the JS object lookup yields `undefined` for keys
outside the four. -/
def ALLOWED_INSTALL_DIRS (home : String) : List (String × String) :=
  [ ("claude", pathJoin (pathJoin home ".claude") "skills"),
    ("codex", pathJoin (pathJoin home ".codex") "skills"),
    ("gemini", pathJoin (pathJoin home ".gemini") "skills"),
    ("opencode", pathJoin (pathJoin home ".opencode") "skills") ]

/-! ## Agent detector (source `detectCurrentAgent`) -/

/-- Result of a `statSync` call in the model: a directory, a non-directory
entry, or a thrown error (missing path, permission failure, any error). -/
inductive StatResult where
  | dir
  | file
  | err
deriving DecidableEq

/-- The process environment variables read by the detector. `none` means
unset; a set variable carries its string value. -/
structure EnvModel where
  SKILLHUB_DEFAULT_AGENT : Option String
  CLAUDE_CODE : Option String
  ANTHROPIC_API_KEY : Option String
  CODEX_HOME : Option String
  OPENAI_API_KEY : Option String
  GEMINI_API_KEY : Option String

/-- JS truthiness of an env-var read: unset and the empty string are falsy. -/
def truthy : Option String → Bool
  | none => false
  | some s => !(s == "")

/-- The `checks` array of the source: agent name and candidate config
directory under the home directory, in the fixed source order. -/
def detectChecks (home : String) : List (String × String) :=
  [ ("claude", pathJoin home ".claude"),
    ("codex", pathJoin home ".codex"),
    ("gemini", pathJoin home ".gemini"),
    ("opencode", pathJoin home ".opencode") ]

/-- The config-directory loop of `detectCurrentAgent`: return the first
agent whose directory stats as a directory; a thrown stat (`.err`) or a
non-directory entry just moves on to the next candidate; afterwards the
source falls through to the default `"claude"`. -/
def detectLoop (stat : String → StatResult) : List (String × String) → String
  | [] => "claude"
  | (agent, dir) :: rest =>
      if stat dir = StatResult.dir then agent else detectLoop stat rest

/-- Source `detectCurrentAgent`: explicit override env var (used verbatim
when truthy and a member of the closed set), then CLI-specific env vars,
then config-directory existence, then the default. Total function: the
detector never raises. -/
def detectCurrentAgent (env : EnvModel) (home : String)
    (stat : String → StatResult) : String :=
  if truthy env.SKILLHUB_DEFAULT_AGENT
      && agentNames.contains (env.SKILLHUB_DEFAULT_AGENT.getD "") then
    env.SKILLHUB_DEFAULT_AGENT.getD ""
  else if truthy env.CLAUDE_CODE || truthy env.ANTHROPIC_API_KEY then
    "claude"
  else if truthy env.CODEX_HOME || truthy env.OPENAI_API_KEY then
    "codex"
  else if truthy env.GEMINI_API_KEY then
    "gemini"
  else
    detectLoop stat (detectChecks home)

/-! ## Install workflow (source `installSkill`)

The remote catalog response (`client.getInstallInfo`) is a parameter
(`InstallInfo`); the filesystem is a failure-injection model (`FsModel`)
plus an explicit log of the attempted mutating operations (`FsOp`).
-/

/-- Fields of the `getInstallInfo` response used by `installSkill`:
`skill.name`, `skill.slug`, `skill.repo_url`, `install.content`,
`one_liners.unix`, `one_liners.windows`. -/
structure InstallInfo where
  skillName : String
  skillSlug : String
  repoUrl : String
  content : String
  unixOneLiner : String
  windowsOneLiner : String

/-- Parsed arguments of the `install_skill` tool (`InstallSkillSchema`):
`skill_id` required, `agents` an optional array of the closed enum,
`confirm` a boolean defaulting to `false`. -/
structure InstallArgs where
  skill_id : String
  agents : Option (List Agent)
  confirm : Bool

/-- Filesystem failure injection: `some msg` means the corresponding call
(`fs.mkdir` on that directory, `fs.writeFile` on that file) throws an
error whose message is `msg`; `none` means it succeeds. -/
structure FsModel where
  mkdirFails : String → Option String
  writeFails : String → Option String

/-- A mutating filesystem call attempted by the install loop. -/
inductive FsOp where
  | mkdir (dir : String)
  | write (file : String) (content : String)
deriving DecidableEq

/-- Per-agent outcome of one iteration of the execute loop, mirroring the
four exits of the source loop body: the unknown-agent guard, the security
check, a caught filesystem error, or a successful install with the final
file path. -/
inductive AgentOutcome where
  | unknownAgent
  | pathEscape
  | fsError (msg : String)
  | installed (file : String)
deriving DecidableEq

/-- The security check of the source, verbatim:
`path.resolve(skillDir).startsWith(path.resolve(baseDir))` — a plain
string prefix test on the resolved paths. -/
def securityCheckPasses (baseDir skillDir : String) : Bool :=
  jsStartsWith (pathResolve skillDir) (pathResolve baseDir)

/-- One iteration of the execute loop of `installSkill` for one agent
name: look up the install root, compute the skill directory and file,
run the security check, then attempt `mkdir` and `writeFile`, catching
filesystem errors. Returns the outcome and the attempted mutations. -/
def installOneAgent (home : String) (fsm : FsModel) (slug content agent : String) :
    AgentOutcome × List FsOp :=
  match List.lookup agent (ALLOWED_INSTALL_DIRS home) with
  | none => (.unknownAgent, [])
  | some baseDir =>
      let skillDir := pathJoin baseDir slug
      let skillFile := pathJoin skillDir "SKILL.md"
      if !securityCheckPasses baseDir skillDir then
        (.pathEscape, [])
      else
        match fsm.mkdirFails skillDir with
        | some msg => (.fsError msg, [.mkdir skillDir])
        | none =>
            match fsm.writeFails skillFile with
            | some msg => (.fsError msg, [.mkdir skillDir, .write skillFile content])
            | none => (.installed skillFile, [.mkdir skillDir, .write skillFile content])

/-- The execute loop over the requested agents, serially in request order,
accumulating the `installed` entries, the `errors` entries and the
attempted filesystem operations, exactly as the source pushes to its two
arrays. -/
def executeLoop (home : String) (fsm : FsModel) (slug content : String) :
    List Agent → List (Agent × AgentOutcome) × List (Agent × AgentOutcome) × List FsOp
  | [] => ([], [], [])
  | a :: rest =>
      let step := installOneAgent home fsm slug content (agentToString a)
      let r := executeLoop home fsm slug content rest
      match step.1 with
      | .installed f => ((a, .installed f) :: r.1, r.2.1, step.2 ++ r.2.2)
      | o => (r.1, (a, o) :: r.2.1, step.2 ++ r.2.2)

/-- The exact line the source pushes for an outcome (`installed` lines go
to the success array, the other three to the error array). -/
def outcomeLine (agent : String) : AgentOutcome → String
  | .unknownAgent => "Unknown agent: " ++ agent
  | .pathEscape => "Security error: Invalid path for " ++ agent
  | .fsError msg => "❌ **" ++ agent ++ "**: " ++ msg
  | .installed file => "✅ **" ++ agent ++ "**: `" ++ file ++ "`"

/-- The execute-phase report text: header, then (when non-empty) the
success section, then (when non-empty) the error section, then the skill
info footer — successes are always rendered before errors. -/
def renderExecute (info : InstallInfo)
    (ins errs : List (Agent × AgentOutcome)) : String :=
  "# ✅ Installed: " ++ info.skillName ++ "\n\n"
  ++ (if ins.length > 0 then
        "## Successfully Installed\n"
        ++ String.intercalate "\n" (ins.map (fun e => outcomeLine (agentToString e.1) e.2))
        ++ "\n\n> **Note:** Restart your AI agent or start a new conversation to load the skill.\n\n"
      else "")
  ++ (if errs.length > 0 then
        "## Errors\n"
        ++ String.intercalate "\n" (errs.map (fun e => outcomeLine (agentToString e.1) e.2))
        ++ "\n\n"
      else "")
  ++ "## Skill Info\n- **Repository:** " ++ info.repoUrl ++ "\n- **Slug:** " ++ info.skillSlug

/-- The order in which per-agent outcomes appear in the rendered execute
report: `renderExecute` prints every success line before every error
line, each group in accumulation order. -/
def reportAgentOrder (ins errs : List (Agent × AgentOutcome)) : List Agent :=
  (ins ++ errs).map Prod.fst

/-- The preview install-paths block: one line per target agent with the
would-be install path and the auto-detected marker. -/
def previewPathsBlock (home : String) (detected : Agent)
    (explicitAgents : Option (List Agent)) (slug : String)
    (targetAgents : List Agent) : String :=
  String.intercalate "\n" (targetAgents.map (fun agent =>
    let baseDir := (List.lookup (agentToString agent) (ALLOWED_INSTALL_DIRS home)).getD "undefined"
    let isDetected := agent = detected ∧ explicitAgents = none
    "- **" ++ agentToString agent ++ "**"
    ++ (if isDetected then " (auto-detected)" else "")
    ++ ": `" ++ pathJoin (pathJoin baseDir slug) "SKILL.md" ++ "`"))

/-- Everything of the preview template before the Unix one-liner. -/
def previewHead (home : String) (detected : Agent)
    (explicitAgents : Option (List Agent)) (info : InstallInfo)
    (targetAgents : List Agent) : String :=
  "# Install " ++ info.skillName ++ "?\n\n## Target Environment\nDetected CLI: **"
  ++ agentToString detected ++ "**\n\n## This will create:\n"
  ++ previewPathsBlock home detected explicitAgents info.skillSlug targetAgents
  ++ "\n\n## Skill Preview\n- **Name:** " ++ info.skillName
  ++ "\n- **Repository:** " ++ info.repoUrl
  ++ "\n- **Content size:** " ++ toString info.content.length
  ++ " characters\n\n---\n\n**To confirm installation, call again with `confirm: true`:**\n```\ninstall_skill(\x7b skill_id: \""
  ++ info.skillSlug
  ++ "\", confirm: true \x7d)\n```\n\nOr use one-liner commands:\n\n### macOS / Linux\n```bash\n"

/-- The preview template between the Unix and the Windows one-liner. -/
def previewMid : String :=
  "\n```\n\n### Windows (PowerShell)\n```powershell\n"

/-- The preview template after the Windows one-liner. -/
def previewTail : String :=
  "\n```"

/-- The full preview text returned when `confirm` is false: it embeds both
one-liner install commands from the catalog response. -/
def previewText (home : String) (detected : Agent)
    (explicitAgents : Option (List Agent)) (info : InstallInfo)
    (targetAgents : List Agent) : String :=
  previewHead home detected explicitAgents info targetAgents
  ++ info.unixOneLiner ++ previewMid ++ info.windowsOneLiner ++ previewTail

/-- Source `installSkill` after the `getInstallInfo` call (`info` is the
response): resolve the target agents (the detected agent when the list is
absent), branch on `confirm`. The preview branch performs no filesystem
operation; the execute branch runs `executeLoop` and renders the report.
Returns the response text and the attempted filesystem operations. -/
def installSkill (home : String) (detected : Agent) (fsm : FsModel)
    (info : InstallInfo) (args : InstallArgs) : String × List FsOp :=
  let targetAgents := match args.agents with
    | none => [detected]
    | some l => l
  if !args.confirm then
    (previewText home detected args.agents info targetAgents, [])
  else
    let r := executeLoop home fsm info.skillSlug info.content targetAgents
    (renderExecute info r.1 r.2.1, r.2.2)

/-! ## Tool dispatcher (source `CallToolRequestSchema` handler)

The raw tool arguments are a JSON value; each tool schema (`zod`) is
embedded as a parse function returning the parsed arguments or a
validation error. The five handler bodies perform remote calls, so they
are environment functions that either return the result text or throw;
the dispatcher wraps everything, converts any thrown error into an
error-flagged result, and fires the usage-tracking call.
-/

/-- JSON values, as delivered in `request.params.arguments`. Numbers are
modeled as integers (every constrained option in the schemas is integral). -/
inductive Json where
  | null
  | bool (b : Bool)
  | num (n : Int)
  | str (s : String)
  | arr (elems : List Json)
  | obj (fields : List (String × Json))

/-- Required string field (`z.string()`). -/
def reqString (fields : List (String × Json)) (k : String) : Except String String :=
  match List.lookup k fields with
  | some (.str s) => .ok s
  | some _ => .error (k ++ ": expected string")
  | none => .error (k ++ ": required")

/-- Optional string field (`z.string().optional()`). -/
def optString (fields : List (String × Json)) (k : String) :
    Except String (Option String) :=
  match List.lookup k fields with
  | none => .ok none
  | some (.str s) => .ok (some s)
  | some _ => .error (k ++ ": expected string")

/-- Number field with bounds and a default
(`z.number().min(lo)[.max(hi)].default(dflt)`). -/
def defNum (fields : List (String × Json)) (k : String) (lo : Int)
    (hi : Option Int) (dflt : Int) : Except String Int :=
  match List.lookup k fields with
  | none => .ok dflt
  | some (.num n) =>
      if lo ≤ n then
        match hi with
        | none => .ok n
        | some h => if n ≤ h then .ok n else .error (k ++ ": too big")
      else .error (k ++ ": too small")
  | some _ => .error (k ++ ": expected number")

/-- Optional number field with bounds
(`z.number().min(lo).max(hi).optional()`). -/
def optNum (fields : List (String × Json)) (k : String) (lo hi : Int) :
    Except String (Option Int) :=
  match List.lookup k fields with
  | none => .ok none
  | some (.num n) =>
      if lo ≤ n then
        if n ≤ hi then .ok (some n) else .error (k ++ ": too big")
      else .error (k ++ ": too small")
  | some _ => .error (k ++ ": expected number")

/-- Boolean field with a default (`z.boolean().default(dflt)`). -/
def defBool (fields : List (String × Json)) (k : String) (dflt : Bool) :
    Except String Bool :=
  match List.lookup k fields with
  | none => .ok dflt
  | some (.bool b) => .ok b
  | some _ => .error (k ++ ": expected boolean")

/-- One element of the `agents` array
(`z.enum(["claude", "codex", "gemini", "opencode"])`). -/
def parseAgentJson : Json → Except String Agent
  | .str "claude" => .ok .claude
  | .str "codex" => .ok .codex
  | .str "gemini" => .ok .gemini
  | .str "opencode" => .ok .opencode
  | _ => .error "agents: invalid enum value"

/-- Parsed `search_skills` arguments (`SearchSkillsSchema`). -/
structure SearchArgs where
  query : String
  limit : Int
  category : Option String
  min_score : Option Int
deriving DecidableEq

/-- `SearchSkillsSchema.parse`. -/
def parseSearchSkills : Json → Except String SearchArgs
  | .obj fields => do
      let q ← reqString fields "query"
      let lim ← defNum fields "limit" 1 (some 20) 5
      let cat ← optString fields "category"
      let ms ← optNum fields "min_score" 0 100
      return { query := q, limit := lim, category := cat, min_score := ms }
  | _ => .error "expected object"

/-- Parsed `get_skill_detail` arguments (`GetSkillDetailSchema`). -/
structure DetailArgs where
  skill_id : String
  include_content : Bool
deriving DecidableEq

/-- `GetSkillDetailSchema.parse`. -/
def parseGetSkillDetail : Json → Except String DetailArgs
  | .obj fields => do
      let sid ← reqString fields "skill_id"
      let inc ← defBool fields "include_content" false
      return { skill_id := sid, include_content := inc }
  | _ => .error "expected object"

/-- `InstallSkillSchema.parse`. -/
def parseInstallSkill : Json → Except String InstallArgs
  | .obj fields => do
      let sid ← reqString fields "skill_id"
      let ags ← (match List.lookup "agents" fields with
        | none => .ok none
        | some (.arr xs) => (xs.mapM parseAgentJson).map some
        | some _ => .error "agents: expected array")
      let conf ← defBool fields "confirm" false
      return { skill_id := sid, agents := ags, confirm := conf }
  | _ => .error "expected object"

/-- Parsed `browse_catalog` arguments (`BrowseCatalogSchema`). -/
structure BrowseArgs where
  category : Option String
  sort : String
  limit : Int
  offset : Int
  min_score : Option Int
deriving DecidableEq

/-- `BrowseCatalogSchema.parse`. -/
def parseBrowseCatalog : Json → Except String BrowseArgs
  | .obj fields => do
      let cat ← optString fields "category"
      let srt ← (match List.lookup "sort" fields with
        | none => .ok "composite"
        | some (.str s) =>
            if ["score", "stars", "recent", "composite"].contains s then .ok s
            else .error "sort: invalid enum value"
        | some _ => .error "sort: invalid enum value")
      let lim ← defNum fields "limit" 1 (some 50) 10
      let off ← defNum fields "offset" 0 none 0
      let ms ← optNum fields "min_score" 0 100
      return { category := cat, sort := srt, limit := lim, offset := off, min_score := ms }
  | _ => .error "expected object"

/-- Parsed `recommend_skills` arguments (`RecommendSkillsSchema`). -/
structure RecommendArgs where
  context : String
  current_skills : List String
  limit : Int
deriving DecidableEq

/-- `RecommendSkillsSchema.parse`. -/
def parseRecommendSkills : Json → Except String RecommendArgs
  | .obj fields => do
      let ctx ← reqString fields "context"
      let cur ← (match List.lookup "current_skills" fields with
        | none => .ok []
        | some (.arr xs) => xs.mapM (fun j => match j with
            | .str s => Except.ok s
            | _ => Except.error "current_skills: expected string")
        | some _ => .error "current_skills: expected array")
      let lim ← defNum fields "limit" 1 (some 10) 5
      return { context := ctx, current_skills := cur, limit := lim }
  | _ => .error "expected object"

/-- The five handler bodies. Each performs remote (and for install,
filesystem) work outside the dispatcher, so each is an environment
function from its parsed arguments to the result text or a thrown error. -/
structure HandlerEnv where
  search : SearchArgs → Except String String
  detail : DetailArgs → Except String String
  install : InstallArgs → Except String String
  browse : BrowseArgs → Except String String
  recommend : RecommendArgs → Except String String

/-- The registered tool names, as declared to the host. -/
def toolNames : List String :=
  ["search_skills", "get_skill_detail", "install_skill", "browse_catalog", "recommend_skills"]

/-- The body of the dispatcher try block: the switch on the tool name.
Validation runs first; on a validation error the handler body never runs.
An unmatched name throws the unknown-tool error. Returns the outcome of
the try block and the list of handler bodies that were invoked. -/
def runTool (env : HandlerEnv) (name : String) (args : Json) :
    Except String String × List String :=
  if name = "search_skills" then
    match parseSearchSkills args with
    | .error e => (.error e, [])
    | .ok p => (env.search p, ["search_skills"])
  else if name = "get_skill_detail" then
    match parseGetSkillDetail args with
    | .error e => (.error e, [])
    | .ok p => (env.detail p, ["get_skill_detail"])
  else if name = "install_skill" then
    match parseInstallSkill args with
    | .error e => (.error e, [])
    | .ok p => (env.install p, ["install_skill"])
  else if name = "browse_catalog" then
    match parseBrowseCatalog args with
    | .error e => (.error e, [])
    | .ok p => (env.browse p, ["browse_catalog"])
  else if name = "recommend_skills" then
    match parseRecommendSkills args with
    | .error e => (.error e, [])
    | .ok p => (env.recommend p, ["recommend_skills"])
  else
    (.error ("Unknown tool: " ++ name), [])

/-- A usage-tracking event as assembled by `trackMCPCall`: tool name,
success flag, optional error message, elapsed milliseconds. -/
structure TrackEvent where
  tool : String
  success : Bool
  error : Option String
  durationMs : Nat
deriving DecidableEq

/-- The structured result returned to the host. -/
structure ToolResult where
  text : String
  isError : Bool
deriving DecidableEq

/-- Everything observable about one dispatch: the returned result, which
handler bodies ran, the tracking events fired, and whether each tracking
fetch was delivered (its failure is swallowed by the source
`.catch` and try/catch inside `trackMCPCall`). -/
structure DispatchOut where
  result : ToolResult
  handlersRun : List String
  trackEvents : List TrackEvent
  trackDeliveries : List Bool
deriving DecidableEq

/-- The dispatcher: run the switch inside the try block; on success wrap
the text and track with `success := true`; on any thrown error (unknown
tool, validation failure, handler failure) convert it to an error-flagged
result and track with `success := false` and the message. The tracking
fetch outcome (`fetchOk`) is recorded but never influences the result:
total function, no error escapes. -/
def dispatch (env : HandlerEnv) (fetchOk : TrackEvent → Bool)
    (durationMs : Nat) (name : String) (args : Json) : DispatchOut :=
  let r := runTool env name args
  match r.1 with
  | .ok text =>
      let ev : TrackEvent := { tool := name, success := true, error := none, durationMs := durationMs }
      { result := { text := text, isError := false },
        handlersRun := r.2, trackEvents := [ev], trackDeliveries := [fetchOk ev] }
  | .error msg =>
      let ev : TrackEvent := { tool := name, success := false, error := some msg, durationMs := durationMs }
      { result := { text := "Error: " ++ msg, isError := true },
        handlersRun := r.2, trackEvents := [ev], trackDeliveries := [fetchOk ev] }

/-- Projection of an `Except` to its error, when there is one. -/
def errOf {α : Type} : Except String α → Option String
  | .error e => some e
  | .ok _ => none

/-- The schema-validation outcome for a named tool: the validation error
of the corresponding parse, `none` for an unregistered name. Defined from
the same parse functions the dispatcher runs. -/
def schemaError (name : String) (args : Json) : Option String :=
  if name = "search_skills" then errOf (parseSearchSkills args)
  else if name = "get_skill_detail" then errOf (parseGetSkillDetail args)
  else if name = "install_skill" then errOf (parseInstallSkill args)
  else if name = "browse_catalog" then errOf (parseBrowseCatalog args)
  else if name = "recommend_skills" then errOf (parseRecommendSkills args)
  else none

/-! ## Helper lemmas and concrete instances -/

/-- A filesystem in which every `mkdir` and every `writeFile` succeeds. -/
def fsmNoFail : FsModel :=
  { mkdirFails := fun _ => none, writeFails := fun _ => none }

/-- A catalog response whose slug contains a dot-dot segment that resolves
to a sibling of the install root sharing the name prefix `skills`. -/
def infoEvil : InstallInfo :=
  { skillName := "Evil", skillSlug := "../skillsEvil",
    repoUrl := "https://example.com/evil", content := "SKILL CONTENT",
    unixOneLiner := "curl -fsSL https://example.com/i.sh | sh",
    windowsOneLiner := "iwr https://example.com/i.ps1 | iex" }

/-- A confirmed install request targeting the claude agent. -/
def argsEvilConfirm : InstallArgs :=
  { skill_id := "evil", agents := some [Agent.claude], confirm := true }

/-- The success entry the loop produces for one agent, when it succeeds. -/
def okEntry (home : String) (fsm : FsModel) (slug content : String)
    (a : Agent) : Option (Agent × AgentOutcome) :=
  match (installOneAgent home fsm slug content (agentToString a)).1 with
  | .installed f => some (a, .installed f)
  | _ => none

/-- The error entry the loop produces for one agent, when it fails. -/
def errEntry (home : String) (fsm : FsModel) (slug content : String)
    (a : Agent) : Option (Agent × AgentOutcome) :=
  match (installOneAgent home fsm slug content (agentToString a)).1 with
  | .installed _ => none
  | o => some (a, o)

/-- The filesystem operations the loop attempts for one agent. -/
def opsOf (home : String) (fsm : FsModel) (slug content : String)
    (a : Agent) : List FsOp :=
  (installOneAgent home fsm slug content (agentToString a)).2

/-- Whether an outcome is a success. -/
def isInstalledOutcome : AgentOutcome → Bool
  | .installed _ => true
  | _ => false

theorem executeLoop_eq (home : String) (fsm : FsModel) (slug content : String) :
    ∀ agents : List Agent,
      executeLoop home fsm slug content agents =
        (agents.filterMap (okEntry home fsm slug content),
         agents.filterMap (errEntry home fsm slug content),
         agents.foldr (fun a acc => opsOf home fsm slug content a ++ acc) [])
  | [] => rfl
  | a :: rest => by
      have ih := executeLoop_eq home fsm slug content rest
      simp only [executeLoop, List.filterMap_cons, List.foldr, ih]
      cases h : (installOneAgent home fsm slug content (agentToString a)).1 <;>
        simp [okEntry, errEntry, opsOf, h]

theorem executeLoop_outcome_count (home : String) (fsm : FsModel)
    (slug content : String) :
    ∀ agents : List Agent,
      (executeLoop home fsm slug content agents).1.length
        + (executeLoop home fsm slug content agents).2.1.length
        = agents.length
  | [] => rfl
  | a :: rest => by
      have ih := executeLoop_outcome_count home fsm slug content rest
      simp only [executeLoop]
      cases h : (installOneAgent home fsm slug content (agentToString a)).1 <;>
        simp [h, List.length_cons] <;> omega

theorem map_fst_filterMap_okEntry (home : String) (fsm : FsModel)
    (slug content : String) :
    ∀ agents : List Agent,
      (agents.filterMap (okEntry home fsm slug content)).map Prod.fst
        = agents.filter (fun a =>
            isInstalledOutcome (installOneAgent home fsm slug content (agentToString a)).1)
  | [] => rfl
  | a :: rest => by
      have ih := map_fst_filterMap_okEntry home fsm slug content rest
      simp only [List.filterMap_cons, List.filter_cons]
      cases h : (installOneAgent home fsm slug content (agentToString a)).1 <;>
        simp [okEntry, isInstalledOutcome, h, ih]

theorem map_fst_filterMap_errEntry (home : String) (fsm : FsModel)
    (slug content : String) :
    ∀ agents : List Agent,
      (agents.filterMap (errEntry home fsm slug content)).map Prod.fst
        = agents.filter (fun a =>
            !isInstalledOutcome (installOneAgent home fsm slug content (agentToString a)).1)
  | [] => rfl
  | a :: rest => by
      have ih := map_fst_filterMap_errEntry home fsm slug content rest
      simp only [List.filterMap_cons, List.filter_cons]
      cases h : (installOneAgent home fsm slug content (agentToString a)).1 <;>
        simp [errEntry, isInstalledOutcome, h, ih]

/-- Install root of each agent, as stored in `ALLOWED_INSTALL_DIRS`. -/
def agentRootDir (home : String) : Agent → String
  | .claude => pathJoin (pathJoin home ".claude") "skills"
  | .codex => pathJoin (pathJoin home ".codex") "skills"
  | .gemini => pathJoin (pathJoin home ".gemini") "skills"
  | .opencode => pathJoin (pathJoin home ".opencode") "skills"

theorem lookup_agentRoot (home : String) (a : Agent) :
    List.lookup (agentToString a) (ALLOWED_INSTALL_DIRS home)
      = some (agentRootDir home a) := by
  cases a <;> rfl

/-! ## Claim theorems -/

/-- Claim C1 (code bug, evaluation at the failing input): with install
root `/home/user/.claude/skills` and catalog slug `../skillsEvil`, the
computed install directory `/home/user/.claude/skillsEvil` resolves
outside the agent root (third conjunct), yet the Execute phase records a
success and no failure (second conjunct) and attempts both the directory
creation and the file write outside the root (first conjunct) — the
plain `startsWith` security check accepts the sibling directory, so no
path-escape failure is recorded, contradicting the claim. -/
theorem installSkill_dotdot_sibling_escape_eval :
    (installSkill "/home/user" Agent.claude fsmNoFail infoEvil argsEvilConfirm).2
      = [FsOp.mkdir "/home/user/.claude/skillsEvil",
         FsOp.write "/home/user/.claude/skillsEvil/SKILL.md" "SKILL CONTENT"]
    ∧ (executeLoop "/home/user" fsmNoFail "../skillsEvil" "SKILL CONTENT" [Agent.claude]).2.1 = []
    ∧ (executeLoop "/home/user" fsmNoFail "../skillsEvil" "SKILL CONTENT" [Agent.claude]).1
        = [(Agent.claude, AgentOutcome.installed "/home/user/.claude/skillsEvil/SKILL.md")]
    ∧ isDescendant "/home/user/.claude/skills" "/home/user/.claude/skillsEvil" = false := by
  decide

/-- Claim C2 (code bug, evaluation at the failing input): the validation
of the source is `path.resolve(skillDir).startsWith(path.resolve(baseDir))`,
a plain string prefix test: it accepts the sibling directory `/a/bee`
against the root `/a/b` (first conjunct) although that directory is not a
component-wise descendant of the root (second conjunct); the sibling case
is reachable from a catalog slug, shown at home `/h` with slug
`../skillsEvil` (third and fourth conjuncts). The claimed component-wise
canonical-prefix validation would reject both. -/
theorem security_check_plain_string_prefix_eval :
    securityCheckPasses "/a/b" "/a/bee" = true
    ∧ isDescendant "/a/b" "/a/bee" = false
    ∧ (installOneAgent "/h" fsmNoFail "../skillsEvil" "C" "claude").1
        = AgentOutcome.installed "/h/.claude/skillsEvil/SKILL.md"
    ∧ isDescendant "/h/.claude/skills" "/h/.claude/skillsEvil" = false := by
  decide

/-- Claim C3: when the confirmation flag is false, `installSkill` attempts
no filesystem operation at all, and the returned preview text contains
both the Unix and the Windows one-line install command supplied by the
catalog client. -/
theorem installSkill_preview_no_write_and_one_liners
    (home : String) (detected : Agent) (fsm : FsModel) (info : InstallInfo)
    (args : InstallArgs) (h : args.confirm = false) :
    (installSkill home detected fsm info args).2 = []
    ∧ List.IsInfix info.unixOneLiner.data
        (installSkill home detected fsm info args).1.data
    ∧ List.IsInfix info.windowsOneLiner.data
        (installSkill home detected fsm info args).1.data := by
  have hout : installSkill home detected fsm info args
      = (previewText home detected args.agents info
          (match args.agents with | none => [detected] | some l => l), []) := by
    simp [installSkill, h]
  rw [hout]
  refine ⟨rfl, ?_, ?_⟩
  · refine ⟨(previewHead home detected args.agents info
        (match args.agents with | none => [detected] | some l => l)).data,
      previewMid.data ++ info.windowsOneLiner.data ++ previewTail.data, ?_⟩
    simp [previewText, String.data_append]
  · refine ⟨(previewHead home detected args.agents info
        (match args.agents with | none => [detected] | some l => l)).data
        ++ info.unixOneLiner.data ++ previewMid.data,
      previewTail.data, ?_⟩
    simp [previewText, String.data_append]

/-- A benign catalog response used for concrete witnesses. -/
def infoDemo : InstallInfo :=
  { skillName := "Demo", skillSlug := "demo",
    repoUrl := "https://example.com/demo", content := "CONTENT",
    unixOneLiner := "curl -fsSL https://example.com/demo.sh | sh",
    windowsOneLiner := "iwr https://example.com/demo.ps1 | iex" }

/-- An unconfirmed install request with no explicit agent list. -/
def argsPreview : InstallArgs :=
  { skill_id := "demo", agents := none, confirm := false }

/-- Witness for C3 at a concrete unconfirmed request. -/
theorem installSkill_preview_witness :
    (installSkill "/h" Agent.claude fsmNoFail infoDemo argsPreview).2 = []
    ∧ List.IsInfix infoDemo.unixOneLiner.data
        (installSkill "/h" Agent.claude fsmNoFail infoDemo argsPreview).1.data
    ∧ List.IsInfix infoDemo.windowsOneLiner.data
        (installSkill "/h" Agent.claude fsmNoFail infoDemo argsPreview).1.data :=
  installSkill_preview_no_write_and_one_liners "/h" Agent.claude fsmNoFail
    infoDemo argsPreview rfl

/-- Claim C4: the Execute phase is best-effort and independent per agent:
the success list and the failure list of the loop are exactly the
per-request-order `filterMap` of a function of each single agent (so the
outcome recorded for an agent depends only on that agent, and a failure
for one agent never prevents the remaining agents from being processed),
and every requested agent is accounted for by exactly one outcome
(successes carry the resolved path, failures carry the reason). -/
theorem installSkill_execute_per_agent_independent
    (home : String) (fsm : FsModel) (slug content : String)
    (agents : List Agent) :
    (executeLoop home fsm slug content agents).1
      = agents.filterMap (okEntry home fsm slug content)
    ∧ (executeLoop home fsm slug content agents).2.1
      = agents.filterMap (errEntry home fsm slug content)
    ∧ (executeLoop home fsm slug content agents).1.length
      + (executeLoop home fsm slug content agents).2.1.length
      = agents.length := by
  refine ⟨?_, ?_, executeLoop_outcome_count home fsm slug content agents⟩ <;>
    rw [executeLoop_eq]

/-- A filesystem in which the claude skill directory cannot be created. -/
def fsmC9 : FsModel :=
  { mkdirFails := fun d =>
      if d = "/h/.claude/skills/demo" then some "EACCES: permission denied" else none,
    writeFails := fun _ => none }

/-- Counterexample to claim C9 as stated: requesting `[claude, codex]`
where the claude directory creation fails, the rendered report lists the
codex success before the claude failure, so the first reported outcome is
not the first requested agent. -/
theorem report_order_counterexample :
    reportAgentOrder
        (executeLoop "/h" fsmC9 "demo" "C" [Agent.claude, Agent.codex]).1
        (executeLoop "/h" fsmC9 "demo" "C" [Agent.claude, Agent.codex]).2.1
      = [Agent.codex, Agent.claude]
    ∧ [Agent.codex, Agent.claude] ≠ [Agent.claude, Agent.codex] := by
  decide

/-- Claim C9 as amended: the rendered report groups outcomes by kind —
every success first, then every failure — and within each group the
outcomes appear in the order of the requested agent list. -/
theorem report_order_grouped_by_kind
    (home : String) (fsm : FsModel) (slug content : String)
    (agents : List Agent) :
    reportAgentOrder (executeLoop home fsm slug content agents).1
        (executeLoop home fsm slug content agents).2.1
      = agents.filter (fun a =>
          isInstalledOutcome (installOneAgent home fsm slug content (agentToString a)).1)
        ++ agents.filter (fun a =>
          !isInstalledOutcome (installOneAgent home fsm slug content (agentToString a)).1) := by
  simp only [reportAgentOrder, executeLoop_eq, List.map_append,
    map_fst_filterMap_okEntry, map_fst_filterMap_errEntry]

/-- Claim C10: schema validation confines target agents to the closed
enum (the type `Agent`), the install-directory map is total over it (the
lookup succeeds for every agent kind), and therefore the unknown-agent
failure branch of the Execute phase is unreachable for validated
requests. -/
theorem install_root_lookup_total_unknown_unreachable
    (home : String) (fsm : FsModel) (slug content : String) (a : Agent) :
    (List.lookup (agentToString a) (ALLOWED_INSTALL_DIRS home)).isSome = true
    ∧ (installOneAgent home fsm slug content (agentToString a)).1
      ≠ AgentOutcome.unknownAgent := by
  refine ⟨by rw [lookup_agentRoot]; rfl, ?_⟩
  simp only [installOneAgent, lookup_agentRoot]
  split
  · simp
  · split <;> [simp; split <;> simp]

/-- The environment with every detector-relevant variable unset. -/
def envAllUnset : EnvModel :=
  { SKILLHUB_DEFAULT_AGENT := none, CLAUDE_CODE := none,
    ANTHROPIC_API_KEY := none, CODEX_HOME := none,
    OPENAI_API_KEY := none, GEMINI_API_KEY := none }

/-- Claim C7: the explicit override wins over everything — whenever the
override variable holds one of the four closed-set names, the detector
returns it verbatim for every home directory and every filesystem state;
and with no environment signals and every directory check failing, the
detector returns the default `claude`. -/
theorem detectCurrentAgent_override_and_default :
    (∀ (env : EnvModel) (home : String) (stat : String → StatResult) (a : String),
        env.SKILLHUB_DEFAULT_AGENT = some a → a ∈ agentNames →
        detectCurrentAgent env home stat = a)
    ∧ (∀ (home : String) (stat : String → StatResult),
        (∀ p, stat p = StatResult.err) →
        detectCurrentAgent envAllUnset home stat = "claude") := by
  constructor
  · intro env home stat a h1 h2
    simp only [agentNames, List.mem_cons, List.not_mem_nil, or_false] at h2
    rcases h2 with rfl | rfl | rfl | rfl <;>
      simp [detectCurrentAgent, h1, truthy, agentNames]
  · intro home stat h
    simp [detectCurrentAgent, envAllUnset, truthy, detectLoop, detectChecks, h]

/-- An environment with the override set to gemini and every other signal
also present, to show the override really beats the other signals. -/
def envOverrideGemini : EnvModel :=
  { SKILLHUB_DEFAULT_AGENT := some "gemini", CLAUDE_CODE := some "1",
    ANTHROPIC_API_KEY := some "key", CODEX_HOME := some "/c",
    OPENAI_API_KEY := some "key2", GEMINI_API_KEY := some "key3" }

/-- Witness for C7: the override wins at a concrete environment full of
rival signals and an all-directories filesystem; the default case yields
claude at a concrete failing filesystem. -/
theorem detectCurrentAgent_override_witness :
    detectCurrentAgent envOverrideGemini "/h" (fun _ => StatResult.dir) = "gemini"
    ∧ detectCurrentAgent envAllUnset "/h" (fun _ => StatResult.err) = "claude" :=
  ⟨detectCurrentAgent_override_and_default.1 envOverrideGemini "/h"
      (fun _ => StatResult.dir) "gemini" rfl (by decide),
   detectCurrentAgent_override_and_default.2 "/h"
      (fun _ => StatResult.err) (fun _ => rfl)⟩

/-- Modelled from the spec wording of the directory scan: the first agent
of the fixed candidate order whose configuration directory stats as a
directory; a stat error or a non-directory entry means absent. -/
def specFirstExistingAgent (home : String) (stat : String → StatResult) :
    Option String :=
  ((detectChecks home).find? (fun c => stat c.2 == StatResult.dir)).map Prod.fst

theorem detectLoop_eq_find (stat : String → StatResult) :
    ∀ l : List (String × String),
      detectLoop stat l
        = ((l.find? (fun c => stat c.2 == StatResult.dir)).map Prod.fst).getD "claude"
  | [] => rfl
  | (agent, dir) :: rest => by
      have ih := detectLoop_eq_find stat rest
      by_cases h : stat dir = StatResult.dir
      · simp [detectLoop, List.find?, h]
      · have hb : (stat dir == StatResult.dir) = false := by
          simp [h]
        simp [detectLoop, List.find?, h, hb, ih]

/-- Claim C8: with no override and no agent-specific environment variable
set, the detector returns the first agent in the fixed order claude,
codex, gemini, opencode whose configuration directory under the home
directory exists and is a directory, treating any stat error as absent
and continuing; when none exists it returns the default claude. The
detector is a total function, so it never raises. -/
theorem detectCurrentAgent_dir_scan_order (env : EnvModel) (home : String)
    (stat : String → StatResult)
    (h1 : truthy env.SKILLHUB_DEFAULT_AGENT = false)
    (h2 : truthy env.CLAUDE_CODE = false)
    (h3 : truthy env.ANTHROPIC_API_KEY = false)
    (h4 : truthy env.CODEX_HOME = false)
    (h5 : truthy env.OPENAI_API_KEY = false)
    (h6 : truthy env.GEMINI_API_KEY = false) :
    detectCurrentAgent env home stat
      = (specFirstExistingAgent home stat).getD "claude" := by
  simp [detectCurrentAgent, h1, h2, h3, h4, h5, h6, specFirstExistingAgent,
    detectLoop_eq_find]

/-- A filesystem where the claude config stat throws and only the codex
config directory exists. -/
def statCodexOnly : String → StatResult := fun p =>
  if p = "/h/.codex" then StatResult.dir else StatResult.err

/-- Witness for C8: with everything unset, the stat error on the claude
directory is skipped and the scan returns codex, matching the spec-side
first-existing-directory function. -/
theorem detectCurrentAgent_dir_scan_witness :
    detectCurrentAgent envAllUnset "/h" statCodexOnly
      = (specFirstExistingAgent "/h" statCodexOnly).getD "claude"
    ∧ (specFirstExistingAgent "/h" statCodexOnly).getD "claude" = "codex" :=
  ⟨detectCurrentAgent_dir_scan_order envAllUnset "/h" statCodexOnly
      rfl rfl rfl rfl rfl rfl,
   by decide⟩

/-- Claim C5: the dispatcher always returns a structured result — an
unregistered tool name yields an error-flagged result with no handler
body invoked, and a schema-validation failure yields an error-flagged
result carrying the validation message, again with no handler body
invoked. (`dispatch` is a total function: no error escapes it.) -/
theorem dispatch_unknown_tool_and_validation_structured
    (env : HandlerEnv) (fetchOk : TrackEvent → Bool) (d : Nat)
    (name : String) (args : Json) :
    (name ∉ toolNames →
      (dispatch env fetchOk d name args).result.isError = true
      ∧ (dispatch env fetchOk d name args).handlersRun = [])
    ∧ (∀ e, schemaError name args = some e →
      (dispatch env fetchOk d name args).result
        = { text := "Error: " ++ e, isError := true }
      ∧ (dispatch env fetchOk d name args).handlersRun = []) := by
  constructor
  · intro hname
    have n1 : ¬ name = "search_skills" := fun h => hname (by rw [h]; decide)
    have n2 : ¬ name = "get_skill_detail" := fun h => hname (by rw [h]; decide)
    have n3 : ¬ name = "install_skill" := fun h => hname (by rw [h]; decide)
    have n4 : ¬ name = "browse_catalog" := fun h => hname (by rw [h]; decide)
    have n5 : ¬ name = "recommend_skills" := fun h => hname (by rw [h]; decide)
    simp [dispatch, runTool, n1, n2, n3, n4, n5]
  · intro e he
    by_cases n1 : name = "search_skills"
    · subst n1
      cases hp : parseSearchSkills args with
      | ok v => simp [schemaError, errOf, hp] at he
      | error e2 =>
          have he2 : e2 = e := by simpa [schemaError, errOf, hp] using he
          subst he2
          simp [dispatch, runTool, hp]
    · by_cases n2 : name = "get_skill_detail"
      · subst n2
        cases hp : parseGetSkillDetail args with
        | ok v => simp [schemaError, errOf, hp] at he
        | error e2 =>
            have he2 : e2 = e := by simpa [schemaError, errOf, hp] using he
            subst he2
            simp [dispatch, runTool, hp]
      · by_cases n3 : name = "install_skill"
        · subst n3
          cases hp : parseInstallSkill args with
          | ok v => simp [schemaError, errOf, hp] at he
          | error e2 =>
              have he2 : e2 = e := by simpa [schemaError, errOf, hp] using he
              subst he2
              simp [dispatch, runTool, hp]
        · by_cases n4 : name = "browse_catalog"
          · subst n4
            cases hp : parseBrowseCatalog args with
            | ok v => simp [schemaError, errOf, hp] at he
            | error e2 =>
                have he2 : e2 = e := by simpa [schemaError, errOf, hp] using he
                subst he2
                simp [dispatch, runTool, hp]
          · by_cases n5 : name = "recommend_skills"
            · subst n5
              cases hp : parseRecommendSkills args with
              | ok v => simp [schemaError, errOf, hp] at he
              | error e2 =>
                  have he2 : e2 = e := by simpa [schemaError, errOf, hp] using he
                  subst he2
                  simp [dispatch, runTool, hp]
            · simp [schemaError, n1, n2, n3, n4, n5] at he

/-- A handler environment in which every handler body succeeds with a
fixed text. -/
def env0 : HandlerEnv :=
  { search := fun _ => .ok "ok", detail := fun _ => .ok "ok",
    install := fun _ => .ok "ok", browse := fun _ => .ok "ok",
    recommend := fun _ => .ok "ok" }

/-- A tracking fetch that always fails (delivery never succeeds). -/
def fetchNever : TrackEvent → Bool := fun _ => false

/-- Witness for C5: a concrete unregistered name gives an error result
with no handler run, and a concrete validation failure (missing required
`query`) gives the structured validation error with no handler run. -/
theorem dispatch_structured_witness :
    ((dispatch env0 fetchNever 5 "bogus_tool" (Json.obj [])).result.isError = true
      ∧ (dispatch env0 fetchNever 5 "bogus_tool" (Json.obj [])).handlersRun = [])
    ∧ ((dispatch env0 fetchNever 5 "search_skills" (Json.obj [])).result
        = { text := "Error: query: required", isError := true }
      ∧ (dispatch env0 fetchNever 5 "search_skills" (Json.obj [])).handlersRun = []) :=
  ⟨(dispatch_unknown_tool_and_validation_structured env0 fetchNever 5
      "bogus_tool" (Json.obj [])).1 (by decide),
   (dispatch_unknown_tool_and_validation_structured env0 fetchNever 5
      "search_skills" (Json.obj [])).2 "query: required" (by decide)⟩

/-- Claim C6: every dispatch fires exactly one tracking event; the event
carries the tool name, the elapsed time, a success flag matching the
result, and an error message exactly when the call failed; and the
outcome of the tracking fetch influences neither the returned result nor
the fired event (tracking failures are fully swallowed). -/
theorem dispatch_tracking_exactly_once_swallowed
    (env : HandlerEnv) (fetchOk : TrackEvent → Bool) (d : Nat)
    (name : String) (args : Json) :
    (dispatch env fetchOk d name args).trackEvents.length = 1
    ∧ (∀ ev ∈ (dispatch env fetchOk d name args).trackEvents,
        ev.tool = name ∧ ev.durationMs = d
        ∧ ev.success = !(dispatch env fetchOk d name args).result.isError
        ∧ ev.error.isSome = (dispatch env fetchOk d name args).result.isError)
    ∧ (∀ g : TrackEvent → Bool,
        (dispatch env g d name args).result = (dispatch env fetchOk d name args).result
        ∧ (dispatch env g d name args).trackEvents
          = (dispatch env fetchOk d name args).trackEvents) := by
  cases hres : (runTool env name args).1 <;>
    simp [dispatch, hres]

/-- The tracking event fired by the concrete validation-failure dispatch
of the C6 witness. -/
def evC6 : TrackEvent :=
  { tool := "search_skills", success := false,
    error := some "query: required", durationMs := 7 }

/-- Witness for C6: at a concrete validation-failure call with a failing
tracking fetch, exactly one event fires, with the tool name, the elapsed
time, success false and an error message present. -/
theorem dispatch_tracking_witness :
    (dispatch env0 fetchNever 7 "search_skills" (Json.obj [])).trackEvents.length = 1
    ∧ evC6.tool = "search_skills" ∧ evC6.durationMs = 7
    ∧ evC6.success = false ∧ evC6.error.isSome = true := by
  have h := dispatch_tracking_exactly_once_swallowed env0 fetchNever 7
    "search_skills" (Json.obj [])
  have hmem : evC6 ∈ (dispatch env0 fetchNever 7 "search_skills" (Json.obj [])).trackEvents := by
    decide
  have hprops := h.2.1 evC6 hmem
  have hErr : (dispatch env0 fetchNever 7 "search_skills" (Json.obj [])).result.isError = true := by
    decide
  refine ⟨h.1, hprops.1, hprops.2.1, ?_, ?_⟩
  · rw [hprops.2.2.1, hErr]; rfl
  · rw [hprops.2.2.2, hErr]

end Skillhub
